import Mathlib

/-!
Shallow embedding of the provider-abstraction core of the Sen application
(`src/services/translationService.ts` and the history handling in the app
root component), together with theorems settling the behavioural claims
about translation dispatch, chat context windowing, cancellation, search
source aggregation/deduplication and history pruning.

JavaScript idioms are modelled explicitly:
* `string | null`/`undefined` fields become `Option String`; JS truthiness of
  such a value is `truthy` below (`null`/`undefined`/`""` are falsy).
* `Array.prototype.slice(-k)` becomes `jsSliceNeg`.
* Thrown JS errors become `Except JsError _`, with `JsError.name`
  distinguishing `AbortError` from ordinary `Error`s.
* External effects (fetch responses, JSON parsing, promise settlements, the
  synthesis call) are oracles passed in as explicit arguments.
-/

namespace Sen

/-! ## JS modelling helpers -/

/-- JS truthiness of a `string | null | undefined` value:
`null`, `undefined` and `""` are falsy. -/
def truthy : Option String → Bool
  | none => false
  | some s => s ≠ ""

/-- `String.prototype.trim()`: strip leading and trailing whitespace. -/
def jsTrim (s : String) : String :=
  String.mk (((s.toList.dropWhile Char.isWhitespace).reverse.dropWhile
    Char.isWhitespace).reverse)

/-- `Array.prototype.push` (functionally: append one element at the end). -/
def jsPush {α : Type} (l : List α) (x : α) : List α := l ++ [x]

/-- `Array.prototype.unshift` (functionally: cons at the front). -/
def jsUnshift {α : Type} (x : α) (l : List α) : List α := x :: l

/-- `messages.slice(-k)` for a natural `k`.  In JavaScript `slice(-0)` is
`slice(0)`, which returns the whole array; for `k > 0` it returns the last
`min k length` elements. -/
def jsSliceNeg {α : Type} (k : Nat) (l : List α) : List α :=
  if k = 0 then l else l.drop (l.length - k)

/-- A thrown JavaScript error value: its `name` (`"Error"`, `"AbortError"`, …)
and its `message`. -/
structure JsError where
  name : String
  message : String
deriving DecidableEq, Repr

/-! ## Data model (`src/types.ts`) -/

inductive ProviderType where
  | DeepLX
  | OpenAI
  | Gemini
deriving DecidableEq, Repr

structure ApiConfig where
  deeplxEndpoint : String
  openaiBaseUrl : String
  openaiKey : String
  geminiBaseUrl : String
  geminiKey : String
  tavilyKey : String
  braveKey : String
deriving DecidableEq, Repr

inductive Role where
  | user
  | assistant
deriving DecidableEq, Repr

structure ChatMessage where
  id : String
  role : Role
  content : String
  timestamp : Nat
  image : Option String := none
deriving DecidableEq, Repr

structure ChatSettings where
  temperature : Rat
  maxContext : Nat
  maxTurns : Nat
  systemInstruction : Option String := none
deriving DecidableEq, Repr

structure SearchSource where
  title : String
  uri : String
  snippet : Option String := none
deriving DecidableEq, Repr

structure SearchResult where
  text : String
  sources : List SearchSource
deriving DecidableEq, Repr

structure HistoryItem where
  id : String
  sourceText : String
  translatedText : String
  sourceLang : String
  targetLang : String
  provider : ProviderType
  timestamp : Nat
  isFavorite : Bool
  wasImage : Bool
deriving DecidableEq, Repr

structure TranslateParams where
  text : String
  sourceLang : String
  targetLang : String
  imageBase64 : Option String
  model : String
  industry : Option String := none
deriving DecidableEq, Repr

/-! ## Gemini client configuration (`getAiClient`) -/

/-- `activeConfig.geminiKey || process.env.API_KEY`: the key actually handed to
the Gemini client constructor (`""` is falsy, so it falls through to the
environment variable, which may itself be absent). -/
def effectiveGeminiKey (cfg : ApiConfig) (envApiKey : Option String) : Option String :=
  if cfg.geminiKey ≠ "" then some cfg.geminiKey else envApiKey

/-- `getAiClient` only emits `console.warn("Gemini API Key is missing.")` when
this is `true`; it never throws and always constructs the client. -/
def geminiKeyMissing (cfg : ApiConfig) (envApiKey : Option String) : Bool :=
  !truthy (effectiveGeminiKey cfg envApiKey)

/-! ## Translate dispatch (`translationService.translate`)

The control flow of `translate` up to its first external effect is pure; we
reify that first effect as a `FirstStep` value.  OCR (a local Tesseract
worker) and network requests are distinguished. -/

inductive FirstStep where
  /-- A `throw new Error(msg)` raised synchronously, before any external call. -/
  | throwErr (msg : String)
  /-- `performOCR(imageBase64, lang)` is invoked (a local OCR engine call). -/
  | ocrCall (lang : String)
  /-- The first external effect is a network request to `target`. -/
  | networkCall (target : String)
  /-- The call returns `value` synchronously with no external effect at all. -/
  | pureReturn (value : String)
deriving DecidableEq, Repr

def FirstStep.isThrow : FirstStep → Bool
  | .throwErr _ => true
  | _ => false

/-- `getTesseractLang`: the fixed language-code table with English fallback. -/
def getTesseractLang (code : String) : String :=
  if code = "ZH" then "chi_sim"
  else if code = "EN" then "eng"
  else if code = "JA" then "jpn"
  else if code = "KO" then "kor"
  else if code = "FR" then "fra"
  else if code = "DE" then "deu"
  else if code = "ES" then "spa"
  else if code = "RU" then "rus"
  else if code = "PT" then "por"
  else if code = "IT" then "ita"
  else if code = "NL" then "nld"
  else if code = "PL" then "pol"
  else if code = "TR" then "tur"
  else if code = "AR" then "ara"
  else if code = "HI" then "hin"
  else if code = "VI" then "vie"
  else if code = "TH" then "tha"
  else if code = "ID" then "ind"
  else if code = "auto" then "eng"
  else "eng"

/-- `baseUrl.replace(/\/+$/, '')`: strip the trailing run of slashes. -/
def cleanBase (s : String) : String :=
  String.mk (s.toList.reverse.dropWhile (· = '/')).reverse

/-- First external step of `translationService.translate(provider, params)`.

DeepLX: if an image is attached (truthy) and `text` is empty, OCR runs first;
otherwise blank text short-circuits to `""`; otherwise a missing endpoint
throws, else the DeepLX endpoint is fetched.  OpenAI: a missing key throws,
else `<cleanBase>/chat/completions` is fetched.  Gemini: `getAiClient` never
throws (missing keys only produce a console warning), so the first external
step is always the `generateContent` network call.  Unknown providers throw. -/
def translateFirstStep (cfg : ApiConfig) (provider : String) (p : TranslateParams) :
    FirstStep :=
  if provider = "DeepLX" then
    if truthy p.imageBase64 && p.text = "" then .ocrCall p.sourceLang
    else if jsTrim p.text = "" then .pureReturn ""
    else if cfg.deeplxEndpoint = "" then .throwErr "DeepLX Endpoint is not configured."
    else .networkCall cfg.deeplxEndpoint
  else if provider = "OpenAI" then
    if cfg.openaiKey = "" then .throwErr "OpenAI API Key is missing."
    else .networkCall (cleanBase cfg.openaiBaseUrl ++ "/chat/completions")
  else if provider = "Gemini" then
    .networkCall "models.generateContent"
  else .throwErr ("Unknown provider: " ++ provider)

/-- Continuation of the DeepLX path after OCR returned `ocrText`:
`if (!textToTranslate.trim()) return "";` then `translateDeepLX`. -/
def deeplxAfterOCR (cfg : ApiConfig) (ocrText : String) : FirstStep :=
  if jsTrim ocrText = "" then .pureReturn ""
  else if cfg.deeplxEndpoint = "" then .throwErr "DeepLX Endpoint is not configured."
  else .networkCall cfg.deeplxEndpoint

/-! ## Chat request construction (`translationService.chat`) -/

/-- `m.image.match(/^data:(.*?);base64,(.*)$/)`: without the `s`/`m` regex
flags a line terminator defeats the match; otherwise the mime type is the
(lazy, hence shortest) segment between `data:` and the first `;base64,`, and
the data is everything after it. -/
def parseDataUri (s : String) : Option (String × String) :=
  if s.toList.contains '\n' ∨ s.toList.contains '\r' then none
  else if s.startsWith "data:" then
    match (s.drop 5).splitOn ";base64," with
    | [] => none
    | [_] => none
    | m :: rest => some (m, String.intercalate ";base64," rest)
  else none

inductive GeminiPart where
  | inlineData (mimeType data : String)
  | text (s : String)
deriving DecidableEq, Repr

/-- The `parts` array built for one chat message on the Gemini path: an
inline-data part when the message has a (truthy) image that parses as a data
URI, then always a text part. -/
def geminiMsgParts (m : ChatMessage) : List GeminiPart :=
  (if truthy m.image then
    match parseDataUri (m.image.getD "") with
    | some md => [.inlineData md.1 md.2]
    | none => []
  else []) ++ [.text m.content]

structure GeminiTurn where
  role : String
  parts : List GeminiPart
deriving DecidableEq, Repr

/-- `role: m.role === 'assistant' ? 'model' : 'user'` plus the parts array. -/
def geminiTurn (m : ChatMessage) : GeminiTurn :=
  { role := if m.role = Role.assistant then "model" else "user"
    parts := geminiMsgParts m }

/-- The default chat system instruction (the template literal in `chat`). -/
def defaultChatSystemInstruction : String :=
  "You are an advanced AI assistant tailored for developers and professionals.\n    \n    STRICT OUTPUT RULES:\n    1. **Markdown**: Use rigorous Markdown formatting. Headers, lists, bolding.\n    2. **Code**: Always wrap code in triple backticks with the correct language identifier (e.g., ```python).\n    3. **Diagrams**: Use Mermaid.js for all flowcharts, sequence diagrams, and class diagrams.\n       - Use ```mermaid` code blocks.\n       - Prefer `flowchart TD` or `sequenceDiagram`.\n       - Quote all node labels to prevent syntax errors (e.g., A[\"Label\"]).\n    4. **Math**: Use LaTeX for mathematical formulas. Inline: $...$, Block: $$...$$.\n    5. **Tables**: Use Markdown tables for structured data.\n    \n    Be concise, accurate, and aesthetically pleasing in your output."

/-- `settings.systemInstruction || <default>` (`""` is falsy). -/
def effectiveSystemInstruction (settings : ChatSettings) : String :=
  match settings.systemInstruction with
  | some s => if s = "" then defaultChatSystemInstruction else s
  | none => defaultChatSystemInstruction

/-- The upstream request built on the Gemini chat path: the windowed messages
minus the last become `history`, the last message's parts are sent as the new
message.  When the context window is empty the source dereferences
`contextMessages[contextMessages.length - 1]`, which is `undefined`, and
crashes on `.image`; that case is `none`. -/
structure GeminiChatRequest where
  history : List GeminiTurn
  lastParts : List GeminiPart
  systemInstruction : String
  temperature : Rat
deriving DecidableEq, Repr

def geminiChatRequest (messages : List ChatMessage) (settings : ChatSettings) :
    Option GeminiChatRequest :=
  let contextMessages := jsSliceNeg settings.maxContext messages
  match contextMessages.getLast? with
  | none => none
  | some lastMessage =>
    some { history := contextMessages.dropLast.map geminiTurn
           lastParts := geminiMsgParts lastMessage
           systemInstruction := effectiveSystemInstruction settings
           temperature := settings.temperature }

inductive OAContent where
  | plain (s : String)
  | withImage (text imageUrl : String)
deriving DecidableEq, Repr

structure OAMessage where
  role : String
  content : OAContent
deriving DecidableEq, Repr

def roleString : Role → String
  | .user => "user"
  | .assistant => "assistant"

/-- One windowed message on the OpenAI-compatible path: role preserved,
content `[{text}, {image_url}]` when a (truthy) image is present. -/
def openAIChatMessage (m : ChatMessage) : OAMessage :=
  if truthy m.image then
    { role := roleString m.role, content := .withImage m.content (m.image.getD "") }
  else
    { role := roleString m.role, content := .plain m.content }

/-- The flat message list sent on the OpenAI-compatible chat path: one system
message, then the windowed messages. -/
def openAIChatRequest (messages : List ChatMessage) (settings : ChatSettings) :
    List OAMessage :=
  let contextMessages := jsSliceNeg settings.maxContext messages
  { role := "system", content := .plain (effectiveSystemInstruction settings) }
    :: contextMessages.map openAIChatMessage

/-! ## The fetch layer and the OpenAI-compatible error pipeline
(`safeFetch`, `openAICompletion`, the catch block of `chat`)

The underlying `fetch` outcome and `JSON.parse` are oracles: the fetch
outcome is either a thrown `JsError` or a raw response, and `parse` stands
for `JSON.parse` (returning `none` on a parse exception). -/

structure FetchResponse where
  ok : Bool
  status : Nat
  text : String
deriving DecidableEq, Repr

structure SafeFetchResult (α : Type) where
  ok : Bool
  status : Nat
  data : Option α
  text : String
deriving DecidableEq, Repr

/-- `safeFetch`: on a successful fetch, read the body once and opportunistically
parse it (`data` stays `null` for an empty body or a parse failure); on a
thrown error, re-raise it iff its name is `AbortError`, otherwise resolve with
`{ok: false, status: 0, data: null, text: ''}`. -/
def safeFetch {α : Type} (parse : String → Option α)
    (outcome : Except JsError FetchResponse) :
    Except JsError (SafeFetchResult α) :=
  match outcome with
  | .ok resp =>
    .ok { ok := resp.ok, status := resp.status
          data := if resp.text = "" then none else parse resp.text
          text := resp.text }
  | .error e =>
    if e.name = "AbortError" then .error e
    else .ok { ok := false, status := 0, data := none, text := "" }

structure OAChoiceMessage where
  content : Option String
deriving DecidableEq, Repr

structure OAChoice where
  message : Option OAChoiceMessage
deriving DecidableEq, Repr

structure OACompletionResponse where
  choices : Option (List OAChoice)
deriving DecidableEq, Repr

/-- `data.choices?.[0]?.message?.content?.trim() || ""`. -/
def extractContent (r : OACompletionResponse) : String :=
  match r.choices with
  | none => ""
  | some cs =>
    match cs.head? with
    | none => ""
    | some c =>
      match c.message with
      | none => ""
      | some msg =>
        match msg.content with
        | none => ""
        | some s => jsTrim s

/-- `openAICompletion`: run `safeFetch`; a non-ok result throws
`API Error <status>: <text>`, a missing/unparseable body throws, otherwise the
parsed response is returned. -/
def openAICompletionModel (parse : String → Option OACompletionResponse)
    (fetchOutcome : Except JsError FetchResponse) :
    Except JsError OACompletionResponse :=
  match safeFetch parse fetchOutcome with
  | .error e => .error e
  | .ok r =>
    if r.ok then
      match r.data with
      | none => .error { name := "Error", message := "API returned empty or invalid JSON response" }
      | some d => .ok d
    else
      .error { name := "Error", message := "API Error " ++ toString r.status ++ ": " ++ r.text }

/-- The OpenAI-compatible `chat` path as an error pipeline: missing key throws
first; then `openAICompletion`, whose thrown errors are caught and re-thrown
unchanged when they are `AbortError`s and otherwise wrapped as
`new Error(e.message || "OpenAI chat failed")`. -/
def chatOpenAIOutcome (cfg : ApiConfig)
    (parse : String → Option OACompletionResponse)
    (fetchOutcome : Except JsError FetchResponse) :
    Except JsError String :=
  if cfg.openaiKey = "" then
    .error { name := "Error", message := "OpenAI API Key is missing." }
  else
    match openAICompletionModel parse fetchOutcome with
    | .ok d => .ok (extractContent d)
    | .error e =>
      if e.name = "AbortError" then .error e
      else .error { name := "Error"
                    message := if e.message = "" then "OpenAI chat failed" else e.message }

/-! ## Search source aggregation (`translationService.search`) -/

/-- `takeUntil c l = (before, rest)`: `before` is the longest run of
characters different from `c`, `rest` is the remainder (starting with `c`,
or empty when `c` does not occur). -/
def takeUntil (c : Char) : List Char → List Char × List Char
  | [] => ([], [])
  | x :: xs =>
    if x = c then ([], x :: xs)
    else
      let p := takeUntil c xs
      (x :: p.1, p.2)

/-- Match `https?:\/\/` at the head of the character list. -/
def stripHttpScheme : List Char → Option (String × List Char)
  | 'h' :: 't' :: 't' :: 'p' :: 's' :: ':' :: '/' :: '/' :: r => some ("https://", r)
  | 'h' :: 't' :: 't' :: 'p' :: ':' :: '/' :: '/' :: r => some ("http://", r)
  | _ => none

/-- One attempted match of `\[([^\]]+)\]\((https?:\/\/[^\)]+)\)` anchored at
the head of the list.  Both character classes are greedy runs that must end
exactly at the closing `]` / `)`, so the regex match is the run up to the next
such delimiter.  Returns the two capture groups (title, url) and the
characters after the match. -/
def matchLinkAt (l : List Char) : Option (String × String × List Char) :=
  match l with
  | '[' :: rest =>
    let t := takeUntil ']' rest
    if t.1 = [] then none
    else
      match t.2 with
      | ']' :: '(' :: rest2 =>
        match stripHttpScheme rest2 with
        | some sr =>
          let u := takeUntil ')' sr.2
          if u.1 = [] then none
          else
            match u.2 with
            | ')' :: rest5 => some (String.mk t.1, sr.1 ++ String.mk u.1, rest5)
            | _ => none
        | none => none
      | _ => none
  | _ => none

/-- Repeated `linkRegex.exec(text)`: scan left to right; after a match resume
after it, otherwise advance one character.  The fuel (initialised to the
character count) only bounds the recursion; every step consumes at least one
character, so it never runs out before the scan ends. -/
def extractLinksAux : Nat → List Char → List (String × String)
  | 0, _ => []
  | _, [] => []
  | fuel + 1, c :: rest =>
    match matchLinkAt (c :: rest) with
    | some r => (r.1, r.2.1) :: extractLinksAux fuel r.2.2
    | none => extractLinksAux fuel rest

/-- All inline Markdown-link citations `[title](http…url)` of `text`,
in order of occurrence. -/
def extractLinks (text : String) : List (String × String) :=
  extractLinksAux text.toList.length text.toList

/-- The structure of a grounded `generateContent` response, as far as `search`
reads it. -/
structure GroundingWeb where
  uri : Option String
  title : Option String
deriving DecidableEq, Repr

structure GroundingChunk where
  web : Option GroundingWeb
deriving DecidableEq, Repr

structure GroundingMetadata where
  groundingChunks : Option (List GroundingChunk)
deriving DecidableEq, Repr

structure Candidate where
  groundingMetadata : Option GroundingMetadata
deriving DecidableEq, Repr

structure SynthResponse where
  text : Option String
  candidates : Option (List Candidate)
deriving DecidableEq, Repr

/-- `response.candidates?.[0]?.groundingMetadata?.groundingChunks || []`. -/
def responseChunks (r : SynthResponse) : List GroundingChunk :=
  match r.candidates with
  | none => []
  | some cs =>
    match cs.head? with
    | none => []
    | some c =>
      match c.groundingMetadata with
      | none => []
      | some g => g.groundingChunks.getD []

/-- `response.text || "No result found."`. -/
def responseText (r : SynthResponse) : String :=
  match r.text with
  | some t => if t = "" then "No result found." else t
  | none => "No result found."

/-- The grounding citations kept as sources: only chunks with both a (truthy)
URI and title, with an empty snippet. -/
def groundingSources (chunks : List GroundingChunk) : List SearchSource :=
  chunks.filterMap fun c =>
    match c.web with
    | some w =>
      if truthy w.uri && truthy w.title then
        some { title := w.title.getD "", uri := w.uri.getD "", snippet := some "" }
      else none
    | none => none

/-- The inline-citation sources extracted from the synthesized text. -/
def linkSources (text : String) : List SearchSource :=
  (extractLinks text).map fun tu => { title := tu.1, uri := tu.2 }

structure WikiData where
  title : String
  uri : String
  content : String
deriving DecidableEq, Repr

/-- The raw source list, mirroring the imperative construction: start from the
grounding citations, `push` each inline citation, `unshift` the Wikipedia
result when present, then `push` each Tavily and each Brave result. -/
def buildRawSources (wikiData : Option WikiData) (text : String)
    (chunks : List GroundingChunk) (tavilyData braveData : List SearchSource) :
    List SearchSource :=
  let r0 := groundingSources chunks
  let r1 := (linkSources text).foldl jsPush r0
  let r2 := match wikiData with
    | some w => jsUnshift { title := w.title, uri := w.uri } r1
    | none => r1
  let r3 := tavilyData.foldl jsPush r2
  braveData.foldl jsPush r3

/-- `s.uri.split('#')[0]`: the URI up to (excluding) the first `#`. -/
def stripFrag (u : String) : String :=
  String.mk (u.toList.takeWhile (· ≠ '#'))

/-- `needle` occurs as a contiguous run inside the haystack. -/
def listContainsSeq (needle : List Char) : List Char → Bool
  | [] => needle.isEmpty
  | c :: rest => needle.isPrefixOf (c :: rest) || listContainsSeq needle rest

/-- `uri.includes('vertexaisearch')` on the fragment-stripped URI. -/
def hasMarker (u : String) : Bool :=
  listContainsSeq "vertexaisearch".toList u.toList

/-- The filter applied to a fragment-stripped URI:
`uri && !uri.includes('vertexaisearch')`. -/
def keepUri (u : String) : Bool :=
  u ≠ "" && !hasMarker u

/-- The dedup loop: `seen` is the set (`seenUris`) of fragment-stripped URIs
already kept; a source is kept when its stripped URI is truthy, carries no
redirect-host marker and was not seen before. -/
def dedupAux : List SearchSource → List String → List SearchSource
  | [], _ => []
  | s :: rest, seen =>
    let u := stripFrag s.uri
    if keepUri u = true ∧ u ∉ seen then s :: dedupAux rest (u :: seen)
    else dedupAux rest seen

def dedupSources (raw : List SearchSource) : List SearchSource :=
  dedupAux raw []

/-- The settlement of the Wikipedia promise:
`wikiResult.status === 'fulfilled' ? wikiResult.value : null`. -/
def settledWiki : Except String (Option WikiData) → Option WikiData
  | .ok v => v
  | .error _ => none

/-- The settlement of a web-search promise:
`result.status === 'fulfilled' ? result.value : []`. -/
def settledList : Except String (List SearchSource) → List SearchSource
  | .ok v => v
  | .error _ => []

/-- `translationService.search`, as a function of the settlements of the three
fan-out promises and of the outcome of the grounded synthesis call (the only
step inside the `try` block that can throw).  The whole body is wrapped in a
catch that converts any thrown error into a degraded result. -/
def searchModel (wikiOutcome : Except String (Option WikiData))
    (tavilyOutcome braveOutcome : Except String (List SearchSource))
    (synth : Except JsError SynthResponse) : SearchResult :=
  let wikiData := settledWiki wikiOutcome
  let tavilyData := settledList tavilyOutcome
  let braveData := settledList braveOutcome
  match synth with
  | .error e => { text := "**Search Unavailable**: " ++ e.message, sources := [] }
  | .ok resp =>
    let text := responseText resp
    let raw := buildRawSources wikiData text (responseChunks resp) tavilyData braveData
    { text := text, sources := dedupSources raw }

/-! ## History handling (`addToHistory` / `onClearHistory` in the app root) -/

/-- `setHistory(prev => [{...new item...}, ...prev].slice(0, 50))`. -/
def addToHistory (item : HistoryItem) (prev : List HistoryItem) : List HistoryItem :=
  ((item :: prev).take 50)

/-- `onClearHistory`: `setHistory(prev => prev.filter(h => h.isFavorite))`. -/
def clearHistory (prev : List HistoryItem) : List HistoryItem :=
  prev.filter (·.isFavorite)

/-! ## Helper lemmas -/

theorem foldl_jsPush {α : Type} (l acc : List α) : l.foldl jsPush acc = acc ++ l := by
  induction l generalizing acc with
  | nil => simp
  | cons x xs ih => simp [jsPush, ih]

/-- The raw source list flattens to: Wikipedia result first (it was
`unshift`ed), then grounding citations, then inline citations, then Tavily,
then Brave. -/
theorem buildRawSources_eq (wikiData : Option WikiData) (text : String)
    (chunks : List GroundingChunk) (tav brave : List SearchSource) :
    buildRawSources wikiData text chunks tav brave =
      (match wikiData with
       | some w => [{ title := w.title, uri := w.uri }]
       | none => ([] : List SearchSource)) ++
        groundingSources chunks ++ linkSources text ++ tav ++ brave := by
  unfold buildRawSources jsUnshift
  cases wikiData <;> simp [foldl_jsPush]

theorem dedupAux_sublist (raw : List SearchSource) :
    ∀ seen : List String, List.Sublist (dedupAux raw seen) raw := by
  induction raw with
  | nil => intro seen; simp [dedupAux]
  | cons s rest ih =>
    intro seen
    simp only [dedupAux]
    split
    · exact List.Sublist.cons₂ s (ih _)
    · exact List.Sublist.cons s (ih seen)

theorem dedupAux_mem (raw : List SearchSource) :
    ∀ (seen : List String) (t : SearchSource), t ∈ dedupAux raw seen →
      keepUri (stripFrag t.uri) = true ∧ stripFrag t.uri ∉ seen := by
  induction raw with
  | nil => intro seen t ht; simp [dedupAux] at ht
  | cons s rest ih =>
    intro seen t ht
    simp only [dedupAux] at ht
    split at ht
    · rename_i hcond
      rcases List.mem_cons.mp ht with rfl | hmem
      · exact hcond
      · have h := ih _ t hmem
        exact ⟨h.1, fun hs => h.2 (List.mem_cons_of_mem _ hs)⟩
    · exact ih seen t ht

theorem dedupAux_bases_nodup (raw : List SearchSource) :
    ∀ seen : List String,
      ((dedupAux raw seen).map (fun s => stripFrag s.uri)).Nodup := by
  induction raw with
  | nil => intro seen; simp [dedupAux]
  | cons s rest ih =>
    intro seen
    simp only [dedupAux]
    split
    · simp only [List.map_cons, List.nodup_cons]
      refine ⟨?_, ih _⟩
      intro hmem
      rcases List.mem_map.mp hmem with ⟨t, ht, hbase⟩
      exact (dedupAux_mem rest _ t ht).2 (hbase ▸ List.mem_cons_self _ _)
    · exact ih seen

theorem dedupAux_find (raw : List SearchSource) :
    ∀ (seen : List String) (b : String), keepUri b = true → b ∉ seen →
      (dedupAux raw seen).find? (fun t => stripFrag t.uri == b) =
        raw.find? (fun t => stripFrag t.uri == b) := by
  induction raw with
  | nil => intro seen b _ _; simp [dedupAux]
  | cons s rest ih =>
    intro seen b hkeep hseen
    simp only [dedupAux]
    by_cases hb : stripFrag s.uri = b
    · rw [if_pos ⟨hb ▸ hkeep, hb ▸ hseen⟩]
      have hba : (stripFrag s.uri == b) = true := by simp [hb]
      simp only [List.find?_cons, hba]
    · have hba : (stripFrag s.uri == b) = false := by simp [hb]
      split
      · simp only [List.find?_cons, hba]
        refine ih _ b hkeep ?_
        intro hmem
        rcases List.mem_cons.mp hmem with h1 | h2
        · exact hb h1.symm
        · exact hseen h2
      · simp only [List.find?_cons, hba]
        exact ih seen b hkeep hseen

theorem dedupAux_base_mem (raw : List SearchSource) :
    ∀ (seen : List String) (s : SearchSource), s ∈ raw →
      keepUri (stripFrag s.uri) = true → stripFrag s.uri ∉ seen →
      ∃ t ∈ dedupAux raw seen, stripFrag t.uri = stripFrag s.uri := by
  induction raw with
  | nil => intro seen s hs; cases hs
  | cons s' rest ih =>
    intro seen s hs hk hns
    simp only [dedupAux]
    split
    · by_cases hb : stripFrag s'.uri = stripFrag s.uri
      · exact ⟨s', List.mem_cons_self _ _, hb⟩
      · have hmem : s ∈ rest := by
          rcases List.mem_cons.mp hs with rfl | h2
          · exact absurd rfl hb
          · exact h2
        have hns' : stripFrag s.uri ∉ stripFrag s'.uri :: seen := by
          intro hm
          rcases List.mem_cons.mp hm with h1 | h2
          · exact hb h1.symm
          · exact hns h2
        rcases ih _ s hmem hk hns' with ⟨t, ht, hbt⟩
        exact ⟨t, List.mem_cons_of_mem _ ht, hbt⟩
    · rename_i hcond
      have hmem : s ∈ rest := by
        rcases List.mem_cons.mp hs with rfl | h2
        · exact absurd ⟨hk, hns⟩ hcond
        · exact h2
      exact ih seen s hmem hk hns

/-! ## Claim theorems: search aggregation -/

/-- C1: `search` dedup — the returned source list is an in-order selection of
the raw merged list whose fragment-stripped base URIs are pairwise distinct;
every kept base URI is nonempty and free of the internal `vertexaisearch`
redirect-host marker; and every raw source with an admissible base URI is
represented, by the first raw occurrence of that base URI (hence with that
occurrence's title). -/
theorem search_dedup_spec (raw : List SearchSource) :
    List.Sublist (dedupSources raw) raw ∧
    ((dedupSources raw).map (fun s => stripFrag s.uri)).Nodup ∧
    (∀ t ∈ dedupSources raw,
      stripFrag t.uri ≠ "" ∧ hasMarker (stripFrag t.uri) = false) ∧
    (∀ s ∈ raw, keepUri (stripFrag s.uri) = true →
      (∃ t ∈ dedupSources raw, stripFrag t.uri = stripFrag s.uri) ∧
      (dedupSources raw).find? (fun t => stripFrag t.uri == stripFrag s.uri) =
        raw.find? (fun t => stripFrag t.uri == stripFrag s.uri)) := by
  refine ⟨dedupAux_sublist raw [], dedupAux_bases_nodup raw [], ?_, ?_⟩
  · intro t ht
    have h := (dedupAux_mem raw [] t ht).1
    unfold keepUri at h
    simp only [Bool.and_eq_true, Bool.not_eq_true', decide_eq_true_eq] at h
    exact h
  · intro s hs hk
    exact ⟨dedupAux_base_mem raw [] s hs hk (List.not_mem_nil _),
      dedupAux_find raw [] (stripFrag s.uri) hk (List.not_mem_nil _)⟩

def srcA : SearchSource := { title := "A", uri := "http://a.example/p#s1" }
def srcB : SearchSource := { title := "B", uri := "http://a.example/p#s2" }
def srcV : SearchSource := { title := "V", uri := "https://vertexaisearch.cloud.google.com/x" }
def srcD : SearchSource := { title := "D", uri := "http://b.example/q" }
def rawSample : List SearchSource := [srcA, srcB, srcV, srcD]

/-- C1 witness: on a concrete raw list with two fragment-twin URIs and a
redirect-host URI, the fragment-duplicate source is represented by the first
occurrence of its base URI. -/
theorem search_dedup_spec_witness :
    srcB ∈ rawSample ∧ keepUri (stripFrag srcB.uri) = true ∧
    (∃ t ∈ dedupSources rawSample, stripFrag t.uri = stripFrag srcB.uri) ∧
    (dedupSources rawSample).find? (fun t => stripFrag t.uri == stripFrag srcB.uri) =
      rawSample.find? (fun t => stripFrag t.uri == stripFrag srcB.uri) :=
  ⟨by decide, by decide,
    ((search_dedup_spec rawSample).2.2.2 srcB (by decide) (by decide)).1,
    ((search_dedup_spec rawSample).2.2.2 srcB (by decide) (by decide)).2⟩

def wiki0 : WikiData :=
  { title := "W (Wikipedia)", uri := "https://en.wikipedia.org/wiki/W", content := "intro" }

def chunk0 : GroundingChunk :=
  { web := some { uri := some "https://g.example/doc", title := some "G" } }

/-- C9 counterexample: with one grounding citation and a Wikipedia result, the
raw list puts the Wikipedia result FIRST (it is `unshift`ed to the front), not
after the grounding and inline citations as the claim orders it. -/
theorem search_order_counterexample :
    buildRawSources (some wiki0) "No links here." [chunk0] [] [] =
      [{ title := "W (Wikipedia)", uri := "https://en.wikipedia.org/wiki/W" },
       { title := "G", uri := "https://g.example/doc", snippet := some "" }] ∧
    buildRawSources (some wiki0) "No links here." [chunk0] [] [] ≠
      groundingSources [chunk0] ++ linkSources "No links here." ++
        [{ title := "W (Wikipedia)", uri := "https://en.wikipedia.org/wiki/W" }]
        ++ [] ++ [] := by
  decide

/-- C9 (amended): `search` builds its raw source list, before deduplication,
in the order: the encyclopedia (Wikipedia) result first (it is prepended to
the front), then the grounding citations (only entries with both a URI and a
title), then the inline Markdown-link citations extracted from the
synthesized text, then each web-search provider's results appended in source
order (Tavily then Brave). -/
theorem search_raw_order (wikiData : Option WikiData) (text : String)
    (chunks : List GroundingChunk) (tav brave : List SearchSource) :
    buildRawSources wikiData text chunks tav brave =
      (match wikiData with
       | some w => [{ title := w.title, uri := w.uri }]
       | none => ([] : List SearchSource)) ++
        groundingSources chunks ++ linkSources text ++ tav ++ brave :=
  buildRawSources_eq wikiData text chunks tav brave

/-- C4: `search` never throws — when the grounded synthesis step throws any
error, the result is a degraded `SearchResult` whose text reports the failure
and whose source list is empty. -/
theorem search_synth_failure_degrades (w : Except String (Option WikiData))
    (t b : Except String (List SearchSource)) (e : JsError) :
    searchModel w t b (.error e) =
      { text := "**Search Unavailable**: " ++ e.message, sources := [] } ∧
    (searchModel w t b (.error e)).sources = [] :=
  ⟨rfl, rfl⟩

/-- C5: fan-out degradation — all three source promises are settled; a
rejected source settles to an empty/null contribution; and whenever the
synthesis call succeeds the result is the ordinary (non-degraded) one, whose
sources retain a representative (same fragment-stripped URI, first occurrence)
of every admissible URI contributed by a fulfilled source. -/
theorem search_partial_failure (w : Except String (Option WikiData))
    (t b : Except String (List SearchSource)) (resp : SynthResponse) :
    (∀ msg, w = .error msg → settledWiki w = none) ∧
    (∀ msg, t = .error msg → settledList t = []) ∧
    (∀ msg, b = .error msg → settledList b = []) ∧
    (searchModel w t b (.ok resp)).text = responseText resp ∧
    (∀ s ∈ settledList t, keepUri (stripFrag s.uri) = true →
      ∃ t' ∈ (searchModel w t b (.ok resp)).sources,
        stripFrag t'.uri = stripFrag s.uri) ∧
    (∀ s ∈ settledList b, keepUri (stripFrag s.uri) = true →
      ∃ t' ∈ (searchModel w t b (.ok resp)).sources,
        stripFrag t'.uri = stripFrag s.uri) ∧
    (∀ wd, settledWiki w = some wd → keepUri (stripFrag wd.uri) = true →
      ∃ t' ∈ (searchModel w t b (.ok resp)).sources,
        stripFrag t'.uri = stripFrag wd.uri) := by
  refine ⟨?_, ?_, ?_, rfl, ?_, ?_, ?_⟩
  · intro msg hmsg; rw [hmsg]; rfl
  · intro msg hmsg; rw [hmsg]; rfl
  · intro msg hmsg; rw [hmsg]; rfl
  · intro s hs hk
    have hmem : s ∈ buildRawSources (settledWiki w) (responseText resp)
        (responseChunks resp) (settledList t) (settledList b) := by
      rw [buildRawSources_eq]
      simp only [List.mem_append]
      exact Or.inl (Or.inr hs)
    exact dedupAux_base_mem _ [] s hmem hk (List.not_mem_nil _)
  · intro s hs hk
    have hmem : s ∈ buildRawSources (settledWiki w) (responseText resp)
        (responseChunks resp) (settledList t) (settledList b) := by
      rw [buildRawSources_eq]
      simp only [List.mem_append]
      exact Or.inr hs
    exact dedupAux_base_mem _ [] s hmem hk (List.not_mem_nil _)
  · intro wd hwd hk
    have hmem : ({ title := wd.title, uri := wd.uri } : SearchSource) ∈
        buildRawSources (settledWiki w) (responseText resp)
          (responseChunks resp) (settledList t) (settledList b) := by
      rw [buildRawSources_eq, hwd]
      simp
    exact dedupAux_base_mem _ [] _ hmem hk (List.not_mem_nil _)

def wikiDown : Except String (Option WikiData) := .error "wikipedia unreachable"
def braveDown : Except String (List SearchSource) := .error "brave 429"
def tavSrc : SearchSource := { title := "T", uri := "https://t.example/a", snippet := some "snip" }
def tavOk : Except String (List SearchSource) := .ok [tavSrc]
def resp0 : SynthResponse := { text := some "All about X", candidates := none }

/-- C5 witness: Wikipedia and Brave rejected, Tavily fulfilled with one
source, synthesis successful — the result is non-degraded and carries the
Tavily contribution. -/
theorem search_partial_failure_witness :
    settledWiki wikiDown = none ∧ settledList braveDown = [] ∧
    tavSrc ∈ settledList tavOk ∧ keepUri (stripFrag tavSrc.uri) = true ∧
    (searchModel wikiDown tavOk braveDown (.ok resp0)).text = responseText resp0 ∧
    ∃ t' ∈ (searchModel wikiDown tavOk braveDown (.ok resp0)).sources,
      stripFrag t'.uri = stripFrag tavSrc.uri := by
  have h := search_partial_failure wikiDown tavOk braveDown resp0
  exact ⟨h.1 "wikipedia unreachable" rfl, h.2.2.1 "brave 429" rfl, by decide, by decide,
    h.2.2.2.1, h.2.2.2.2.1 tavSrc (by decide) (by decide)⟩

/-! ## Claim theorems: chat context windowing -/

def msgK0 : ChatMessage := { id := "m1", role := .user, content := "hello", timestamp := 1 }

def settingsK0 : ChatSettings :=
  { temperature := 1, maxContext := 0, maxTurns := 20 }

/-- C2 counterexample: with one message and `maxContext = 0` (so `k < N`),
`messages.slice(-0)` is the whole list — the outgoing OpenAI-compatible
request carries that one message after the system message instead of the last
`0` messages. -/
theorem chat_context_window_counterexample :
    settingsK0.maxContext < [msgK0].length ∧
    jsSliceNeg settingsK0.maxContext [msgK0] = [msgK0] ∧
    [msgK0] ≠ List.drop ([msgK0].length - settingsK0.maxContext) [msgK0] ∧
    openAIChatRequest [msgK0] settingsK0 =
      [{ role := "system", content := .plain (effectiveSystemInstruction settingsK0) },
       openAIChatMessage msgK0] :=
  ⟨by decide, rfl, by decide, rfl⟩

/-- C2 (amended): for every message list of length N and every settings with
`1 ≤ maxContext = k < N`, chat forwards exactly the last k messages upstream —
as Gemini history plus the final message, or after the system message on the
OpenAI-compatible path — and none of the earlier N − k messages appears in
the outgoing request. -/
theorem chat_context_window (messages : List ChatMessage) (settings : ChatSettings)
    (h1 : 1 ≤ settings.maxContext) (h2 : settings.maxContext < messages.length) :
    jsSliceNeg settings.maxContext messages =
      messages.drop (messages.length - settings.maxContext) ∧
    (jsSliceNeg settings.maxContext messages).length = settings.maxContext ∧
    openAIChatRequest messages settings =
      { role := "system", content := .plain (effectiveSystemInstruction settings) }
        :: (messages.drop (messages.length - settings.maxContext)).map openAIChatMessage ∧
    ∃ last, (messages.drop (messages.length - settings.maxContext)).getLast? = some last ∧
      geminiChatRequest messages settings = some
        { history := (messages.drop (messages.length - settings.maxContext)).dropLast.map geminiTurn
          lastParts := geminiMsgParts last
          systemInstruction := effectiveSystemInstruction settings
          temperature := settings.temperature } := by
  have hk0 : settings.maxContext ≠ 0 := by omega
  have heq : jsSliceNeg settings.maxContext messages =
      messages.drop (messages.length - settings.maxContext) := by
    simp [jsSliceNeg, hk0]
  have hlen : (messages.drop (messages.length - settings.maxContext)).length =
      settings.maxContext := by
    rw [List.length_drop]
    omega
  have hne : messages.drop (messages.length - settings.maxContext) ≠ [] := by
    intro hnil
    rw [hnil] at hlen
    simp only [List.length_nil] at hlen
    omega
  obtain ⟨last, hlast⟩ :=
    Option.isSome_iff_exists.mp (List.getLast?_isSome.mpr hne)
  refine ⟨heq, by rw [heq, hlen], ?_, last, hlast, ?_⟩
  · unfold openAIChatRequest
    rw [heq]
  · unfold geminiChatRequest
    rw [heq]
    dsimp only
    rw [hlast]

def msgW0 : ChatMessage := { id := "w0", role := .user, content := "old question", timestamp := 1 }
def msgW1 : ChatMessage :=
  { id := "w1", role := .assistant, content := "latest answer", timestamp := 2 }

def settingsK1 : ChatSettings :=
  { temperature := 1, maxContext := 1, maxTurns := 20 }

/-- C2 witness: two messages, `maxContext = 1` — only the last message is
forwarded on both provider paths. -/
theorem chat_context_window_witness :
    1 ≤ settingsK1.maxContext ∧ settingsK1.maxContext < [msgW0, msgW1].length ∧
    (jsSliceNeg settingsK1.maxContext [msgW0, msgW1] =
      List.drop ([msgW0, msgW1].length - settingsK1.maxContext) [msgW0, msgW1] ∧
    (jsSliceNeg settingsK1.maxContext [msgW0, msgW1]).length = settingsK1.maxContext ∧
    openAIChatRequest [msgW0, msgW1] settingsK1 =
      { role := "system", content := .plain (effectiveSystemInstruction settingsK1) }
        :: (List.drop ([msgW0, msgW1].length - settingsK1.maxContext)
            [msgW0, msgW1]).map openAIChatMessage ∧
    ∃ last, (List.drop ([msgW0, msgW1].length - settingsK1.maxContext)
        [msgW0, msgW1]).getLast? = some last ∧
      geminiChatRequest [msgW0, msgW1] settingsK1 = some
        { history := (List.drop ([msgW0, msgW1].length - settingsK1.maxContext)
            [msgW0, msgW1]).dropLast.map geminiTurn
          lastParts := geminiMsgParts last
          systemInstruction := effectiveSystemInstruction settingsK1
          temperature := settingsK1.temperature }) :=
  ⟨by decide, by decide, chat_context_window [msgW0, msgW1] settingsK1 (by decide) (by decide)⟩

/-- C10: with a non-empty message list and `maxContext = 0`, the context
window `messages.slice(-0)` is the entire list, so chat forwards the whole
history upstream rather than zero messages. -/
theorem chat_maxContext_zero (messages : List ChatMessage) (settings : ChatSettings)
    (hne : messages ≠ []) (h0 : settings.maxContext = 0) :
    jsSliceNeg settings.maxContext messages = messages ∧
    openAIChatRequest messages settings =
      { role := "system", content := .plain (effectiveSystemInstruction settings) }
        :: messages.map openAIChatMessage ∧
    ∃ last, messages.getLast? = some last ∧
      geminiChatRequest messages settings = some
        { history := messages.dropLast.map geminiTurn
          lastParts := geminiMsgParts last
          systemInstruction := effectiveSystemInstruction settings
          temperature := settings.temperature } := by
  have heq : jsSliceNeg settings.maxContext messages = messages := by
    simp [jsSliceNeg, h0]
  obtain ⟨last, hlast⟩ :=
    Option.isSome_iff_exists.mp (List.getLast?_isSome.mpr hne)
  refine ⟨heq, ?_, last, hlast, ?_⟩
  · unfold openAIChatRequest
    rw [heq]
  · unfold geminiChatRequest
    rw [heq]
    dsimp only
    rw [hlast]

/-- C10 witness: one message and `maxContext = 0` — the whole (one-element)
history is forwarded. -/
theorem chat_maxContext_zero_witness :
    ([msgK0] : List ChatMessage) ≠ [] ∧ settingsK0.maxContext = 0 ∧
    (jsSliceNeg settingsK0.maxContext [msgK0] = [msgK0] ∧
    openAIChatRequest [msgK0] settingsK0 =
      { role := "system", content := .plain (effectiveSystemInstruction settingsK0) }
        :: [msgK0].map openAIChatMessage ∧
    ∃ last, ([msgK0] : List ChatMessage).getLast? = some last ∧
      geminiChatRequest [msgK0] settingsK0 = some
        { history := ([msgK0] : List ChatMessage).dropLast.map geminiTurn
          lastParts := geminiMsgParts last
          systemInstruction := effectiveSystemInstruction settingsK0
          temperature := settingsK0.temperature }) :=
  ⟨by decide, rfl, chat_maxContext_zero [msgK0] settingsK0 (by decide) rfl⟩

/-! ## Claim theorems: translate credential checks and OCR dispatch -/

def emptyConfig : ApiConfig :=
  { deeplxEndpoint := "", openaiBaseUrl := "", openaiKey := "", geminiBaseUrl := ""
    geminiKey := "", tavilyKey := "", braveKey := "" }

def textParams : TranslateParams :=
  { text := "Hello", sourceLang := "EN", targetLang := "ZH", imageBase64 := none
    model := "gemini-2.0-flash" }

/-- C3 counterexample: with every credential empty (and no environment key),
`translate('Gemini', …)` does not fail before a network call — `getAiClient`
only logs a warning for the missing key and the first external step is the
`generateContent` request. -/
theorem translate_missing_credentials_counterexample :
    geminiKeyMissing emptyConfig none = true ∧
    translateFirstStep emptyConfig "Gemini" textParams =
      .networkCall "models.generateContent" ∧
    (translateFirstStep emptyConfig "Gemini" textParams).isThrow = false := by
  decide

/-- C3 (amended): for DeepLX (when called with non-blank text) and OpenAI,
`translate` with the provider's required credential empty throws an error
naming the missing credential before any network call; for Gemini a missing
API key is only logged as a warning and the network call is still attempted. -/
theorem translate_missing_credentials (cfg : ApiConfig) (p : TranslateParams)
    (hdx : cfg.deeplxEndpoint = "") (hoa : cfg.openaiKey = "")
    (htext : jsTrim p.text ≠ "") :
    translateFirstStep cfg "DeepLX" p = .throwErr "DeepLX Endpoint is not configured." ∧
    translateFirstStep cfg "OpenAI" p = .throwErr "OpenAI API Key is missing." ∧
    translateFirstStep cfg "Gemini" p = .networkCall "models.generateContent" := by
  have htext0 : p.text ≠ "" := by
    intro h
    exact htext (by rw [h]; rfl)
  refine ⟨?_, ?_, rfl⟩
  · show (if truthy p.imageBase64 && p.text = "" then FirstStep.ocrCall p.sourceLang
      else if jsTrim p.text = "" then .pureReturn ""
      else if cfg.deeplxEndpoint = "" then .throwErr "DeepLX Endpoint is not configured."
      else .networkCall cfg.deeplxEndpoint) = .throwErr "DeepLX Endpoint is not configured."
    simp [htext0, htext, hdx]
  · show (if cfg.openaiKey = "" then FirstStep.throwErr "OpenAI API Key is missing."
      else .networkCall (cleanBase cfg.openaiBaseUrl ++ "/chat/completions")) =
      .throwErr "OpenAI API Key is missing."
    simp [hoa]

/-- C3 witness: the amended behaviour at the all-empty configuration. -/
theorem translate_missing_credentials_witness :
    emptyConfig.deeplxEndpoint = "" ∧ emptyConfig.openaiKey = "" ∧
    jsTrim textParams.text ≠ "" ∧
    (translateFirstStep emptyConfig "DeepLX" textParams =
        .throwErr "DeepLX Endpoint is not configured." ∧
      translateFirstStep emptyConfig "OpenAI" textParams =
        .throwErr "OpenAI API Key is missing." ∧
      translateFirstStep emptyConfig "Gemini" textParams =
        .networkCall "models.generateContent") :=
  ⟨rfl, rfl, by decide,
    translate_missing_credentials emptyConfig textParams rfl rfl (by decide)⟩

def dxConfig : ApiConfig :=
  { deeplxEndpoint := "https://dx.example/translate", openaiBaseUrl := "", openaiKey := ""
    geminiBaseUrl := "", geminiKey := "", tavilyKey := "", braveKey := "" }

def emptyImageParams : TranslateParams :=
  { text := "", sourceLang := "JA", targetLang := "EN", imageBase64 := some ""
    model := "deeplx" }

/-- C6 counterexample: `imageBase64` non-null but empty (`some ""`) with empty
text — the guard `params.imageBase64 && !textToTranslate` is falsy, so OCR is
NOT invoked; the call short-circuits to `""`. -/
theorem deeplx_ocr_counterexample :
    emptyImageParams.imageBase64 ≠ none ∧ emptyImageParams.text = "" ∧
    translateFirstStep dxConfig "DeepLX" emptyImageParams = .pureReturn "" ∧
    translateFirstStep dxConfig "DeepLX" emptyImageParams ≠
      .ocrCall emptyImageParams.sourceLang := by
  decide

/-- C6 (amended): for DeepLX with a non-null, non-empty `imageBase64` and
empty text, OCR is invoked with the request's `sourceLang`; and whenever the
OCR-extracted text is empty after trimming, the call returns `""` with no
DeepLX network call. -/
theorem deeplx_ocr_flow (cfg : ApiConfig) (p : TranslateParams)
    (himg : truthy p.imageBase64 = true) (htext : p.text = "") :
    translateFirstStep cfg "DeepLX" p = .ocrCall p.sourceLang ∧
    (∀ ocrText, jsTrim ocrText = "" → deeplxAfterOCR cfg ocrText = .pureReturn "") := by
  constructor
  · show (if truthy p.imageBase64 && p.text = "" then FirstStep.ocrCall p.sourceLang
      else if jsTrim p.text = "" then .pureReturn ""
      else if cfg.deeplxEndpoint = "" then .throwErr "DeepLX Endpoint is not configured."
      else .networkCall cfg.deeplxEndpoint) = .ocrCall p.sourceLang
    simp [himg, htext]
  · intro ocrText h
    simp [deeplxAfterOCR, h]

def imgParams : TranslateParams :=
  { text := "", sourceLang := "JA", targetLang := "EN"
    imageBase64 := some "iVBORw0KGgo=", model := "deeplx" }

/-- C6 witness: a concrete image-only DeepLX request — OCR runs with the
request's source language, and whitespace-only OCR output yields `""` without
any DeepLX call. -/
theorem deeplx_ocr_flow_witness :
    truthy imgParams.imageBase64 = true ∧ imgParams.text = "" ∧
    translateFirstStep dxConfig "DeepLX" imgParams = .ocrCall "JA" ∧
    jsTrim "  \t " = "" ∧
    deeplxAfterOCR dxConfig "  \t " = .pureReturn "" := by
  have h := deeplx_ocr_flow dxConfig imgParams (by decide) rfl
  exact ⟨by decide, rfl, h.1, by decide, h.2 "  \t " (by decide)⟩

/-! ## Claim theorems: cancellation -/

/-- C7: aborting an in-flight OpenAI-compatible chat call is a distinguished
outcome — an `AbortError` thrown by `fetch` is re-raised unchanged by
`safeFetch`, by `openAICompletion` and by the `chat` catch block, never
normalized into a generic error message or an error result. -/
theorem chat_abort_propagation (cfg : ApiConfig)
    (parse : String → Option OACompletionResponse) (e : JsError)
    (hkey : cfg.openaiKey ≠ "") (habort : e.name = "AbortError") :
    safeFetch parse (.error e) = .error e ∧
    openAICompletionModel parse (.error e) = .error e ∧
    chatOpenAIOutcome cfg parse (.error e) = .error e := by
  have h1 : safeFetch parse (Except.error e : Except JsError FetchResponse) = .error e := by
    simp [safeFetch, habort]
  have h2 : openAICompletionModel parse (.error e) = .error e := by
    simp [openAICompletionModel, h1]
  refine ⟨h1, h2, ?_⟩
  simp [chatOpenAIOutcome, hkey, h2, habort]

def abortErr : JsError := { name := "AbortError", message := "The operation was aborted." }

def keyedConfig : ApiConfig :=
  { deeplxEndpoint := "", openaiBaseUrl := "https://api.openai.com/v1"
    openaiKey := "sk-test", geminiBaseUrl := "", geminiKey := ""
    tavilyKey := "", braveKey := "" }

/-- C7 witness: a concrete abort during a keyed OpenAI-compatible chat —
the very same error object comes back out of the chat layer. -/
theorem chat_abort_propagation_witness :
    keyedConfig.openaiKey ≠ "" ∧ abortErr.name = "AbortError" ∧
    (safeFetch (fun _ => none) (.error abortErr) =
        (.error abortErr : Except JsError (SafeFetchResult OACompletionResponse)) ∧
      openAICompletionModel (fun _ => none) (.error abortErr) = .error abortErr ∧
      chatOpenAIOutcome keyedConfig (fun _ => none) (.error abortErr) = .error abortErr) :=
  ⟨by decide, rfl, chat_abort_propagation keyedConfig (fun _ => none) abortErr (by decide) rfl⟩

/-! ## Claim theorems: translation history bound -/

def baseHistItem : HistoryItem :=
  { id := "", sourceText := "s", translatedText := "t", sourceLang := "EN"
    targetLang := "ZH", provider := .Gemini, timestamp := 0
    isFavorite := false, wasImage := false }

def histItem (n : Nat) : HistoryItem := { baseHistItem with timestamp := n }

def favHistItem : HistoryItem := { baseHistItem with timestamp := 999, isFavorite := true }

def fullHistory : List HistoryItem := (List.range 49).map histItem ++ [favHistItem]

/-- C8 counterexample: a favorite sitting at position 50 of a full history is
removed by the append-time pruning `[newItem, ...prev].slice(0, 50)` — the
50-item bound does NOT exempt favorites. -/
theorem history_favorite_pruned_counterexample :
    fullHistory.length = 50 ∧ favHistItem.isFavorite = true ∧
    favHistItem ∈ fullHistory ∧
    favHistItem ∉ addToHistory (histItem 1000) fullHistory := by
  decide

/-- C8 (amended): after every append the history holds at most 50 items, the
new item first and prior order preserved; the append-time 50-item pruning
does not exempt favorites; favorites are exempt only from the explicit
clear-history operation, which retains exactly the favorite items. -/
theorem history_bound (item : HistoryItem) (prev : List HistoryItem) :
    (addToHistory item prev).length ≤ 50 ∧
    (addToHistory item prev).head? = some item ∧
    List.Sublist (addToHistory item prev) (item :: prev) ∧
    (∀ h, h ∈ clearHistory prev ↔ h ∈ prev ∧ h.isFavorite = true) := by
  refine ⟨List.length_take_le 50 (item :: prev), rfl, List.take_sublist _ _, ?_⟩
  intro h
  simp [clearHistory, List.mem_filter]

/-- C8 witness: the amended bound at a concrete full history. -/
theorem history_bound_witness :
    (addToHistory (histItem 1000) fullHistory).length ≤ 50 ∧
    (addToHistory (histItem 1000) fullHistory).head? = some (histItem 1000) ∧
    (favHistItem ∈ clearHistory fullHistory ↔
      favHistItem ∈ fullHistory ∧ favHistItem.isFavorite = true) := by
  have h := history_bound (histItem 1000) fullHistory
  exact ⟨h.1, h.2.1, h.2.2.2 favHistItem⟩

end Sen
